import Mathlib

/-!
Shallow embedding of the reducer factories in `src/configure.ts` of the
redux-kit repository (createAsyncReducer, createAsyncPagingReducer,
createReducerBatch), together with proofs of the frozen claims about them.

JavaScript objects are modelled as ordered lists of string-keyed fields;
JavaScript numbers are modelled as integers (every claim only exercises
integer arithmetic, where IEEE doubles are exact); runtime TypeErrors
(property access / destructuring on null or undefined, calling array
methods on non-arrays) are modelled with an `Except Unit` result.
-/

/-- JavaScript runtime values restricted to the shapes the reducers
manipulate: null, undefined, booleans, integer numbers, strings, arrays
and plain objects (ordered field lists). -/
inductive JsVal : Type where
  | null : JsVal
  | undefined : JsVal
  | bool : Bool → JsVal
  | int : Int → JsVal
  | str : String → JsVal
  | arr : List JsVal → JsVal
  | obj : List (String × JsVal) → JsVal

/-- A JS object's field list.  JS objects never hold two fields with the
same key; where a proof needs that fact it carries an explicit
`keysNodup` hypothesis. -/
abbrev Obj := List (String × JsVal)

namespace JsVal

/-- JS truthiness (`if (v)`).  `NaN` does not arise because numbers are
modelled as integers. -/
def truthy : JsVal → Bool
  | .null => false
  | .undefined => false
  | .bool b => b
  | .int n => n != 0
  | .str s => s != ""
  | .arr _ => true
  | .obj _ => true

/-- `v` is `null` or `undefined` (property access / destructuring on such
a value throws a TypeError). -/
def isNullish : JsVal → Bool
  | .null => true
  | .undefined => true
  | _ => false

def isObjV : JsVal → Bool
  | .obj _ => true
  | _ => false

def isArrV : JsVal → Bool
  | .arr _ => true
  | _ => false

/-- `v` is a JS primitive (not an object and not an array). -/
def isPrim (v : JsVal) : Bool := !v.isObjV && !v.isArrV

end JsVal

/-- Read a field from a field list; an absent field reads as `undefined`
(JS property access on a plain object).  When the key occurs twice the
first occurrence wins; JS objects never have duplicate keys. -/
def getF : Obj → String → JsVal
  | [], _ => .undefined
  | (k', v) :: t, k => if k' = k then v else getF t k

/-- Does the field list hold the key (the JS `in` / own-property test)? -/
def hasF : Obj → String → Bool
  | [], _ => false
  | (k', _) :: t, k => k' = k || hasF t k

/-- JS property assignment `o[k] = v`: overwrite in place when the key is
present, otherwise append the new field at the end (JS insertion order). -/
def setF : Obj → String → JsVal → Obj
  | [], k, v => [(k, v)]
  | (k', v') :: t, k, v => if k' = k then (k, v) :: t else (k', v') :: setF t k v

/-- JS `delete o[k]`: drop the field with that key (a JS object holds at
most one). -/
def removeF : Obj → String → Obj
  | [], _ => []
  | (k', v) :: t, k => if k' = k then removeF t k else (k', v) :: removeF t k

/-- JS object spread / `Object.assign`-style shallow merge: assign every
field of `r` onto `o` in order. -/
def mergeF (o : Obj) (r : Obj) : Obj := r.foldl (fun a e => setF a e.1 e.2) o

/-- The field list of an object value; a primitive spreads (and rest-
destructures) to no fields.  (A string would spread to indexed character
fields; no claim exercises the value produced there.) -/
def objFields : JsVal → Obj
  | .obj f => f
  | _ => []

/-- JS property read `v[k]` on a value already known not to be nullish:
fields of an object, `undefined` on other primitives.  (Reads on arrays
and indexed reads on strings are not needed by any claim.) -/
def propGet (v : JsVal) (k : String) : JsVal :=
  match v with
  | .obj f => getF f k
  | _ => .undefined

/-- JS strict equality `===` between id values.  Two distinct objects or
arrays compare by reference, which a value model cannot represent, so the
model returns `false` whenever either side is an object or an array; it
is exact whenever at least one side is a primitive, and every theorem
that depends on a comparison result restricts the searched id to a
primitive. -/
def strictEq : JsVal → JsVal → Bool
  | .null, .null => true
  | .undefined, .undefined => true
  | .bool a, .bool b => a == b
  | .int a, .int b => a == b
  | .str a, .str b => a == b
  | _, _ => false

/-- `a + n` for the `offset` arithmetic of the paging reducer.  JS
coercion for a non-numeric left operand (NaN, string concatenation) is
outside the model; every theorem that reads the resulting offset assumes
a numeric current offset, as the TypeScript state type guarantees. -/
def jsAddInt (a : JsVal) (n : Int) : JsVal :=
  match a with
  | .int m => .int (m + n)
  | _ => .undefined

/-- Keys of a field list are pairwise distinct (always true of a JS
object). -/
def keysNodup (o : Obj) : Prop := (o.map Prod.fst).Nodup

instance (o : Obj) : Decidable (keysNodup o) := by
  unfold keysNodup; infer_instance

/-- An action as consumed by both reducers: `{ type, payload?, key? }`. -/
structure IAsyncAction where
  type : String
  payload : JsVal
  key : Option String

/-- `const key = action.key; if (key) ...`: the keyed branch is taken
exactly when the key is a present, non-empty string. -/
def keyOf : Option String → Option String
  | some s => if s = "" then none else some s
  | none => none

/-! ## createAsyncReducer (src/configure.ts lines 339-444)

The reducer body is split into one definition per `case` of the source's
`switch`, sharing the dispatch on `action.key` truthiness.  Operations
that throw a TypeError at runtime (writing a property of a primitive
through the draft) yield `Except.error ()`; the TypeScript state type
(`dataEntity` an object of `IAsyncState` records) rules those paths out,
and theorems carry the corresponding well-formedness hypothesis.  A
`dataEntity` that is an array is also ruled out by the TypeScript type
and is mapped to the error path. -/

/-- `defaultAsyncState` (lines 159-163). -/
def defaultAsyncState : Obj :=
  [("data", .null), ("pending", .bool false), ("error", .null)]

/-- `defaultState = { ...defaultAsyncState, ...initialState }`
(lines 343-346). -/
def asyncDefaultState (init : Obj) : Obj := mergeF defaultAsyncState init

/-- The shared keyed-entry update shape of the PENDING / SUCCESS / FAIL
cases (lines 357-370, 377-394, 403-418): lazily create the `dataEntity`
object, then either update the existing truthy entry with `upd` or store
the freshly built entry `fresh`. -/
def asyncKeyedCase (S : Obj) (k : String) (upd : Obj → Obj) (fresh : Obj) :
    Except Unit Obj :=
  let de := getF S "dataEntity"
  match (if de.truthy then de else .obj []) with
  | .obj df =>
    let entry := getF df k
    if entry.truthy then
      match entry with
      | .obj ef => .ok (setF S "dataEntity" (.obj (setF df k (.obj (upd ef)))))
      | _ => .error ()
    else
      .ok (setF S "dataEntity" (.obj (setF df k (.obj fresh))))
  | _ => .error ()

/-- `case PENDING` (lines 355-374). -/
def asyncPending (defaultState S : Obj) (key : Option String) :
    Except Unit Obj :=
  match keyOf key with
  | some k =>
    asyncKeyedCase S k
      (fun ef => setF ef "pending" (.bool true))
      (mergeF defaultState [("pending", .bool true)])
  | none => .ok (setF S "pending" (.bool true))

/-- `case SUCCESS` (lines 375-400). -/
def asyncSuccess (S : Obj) (pl : JsVal) (key : Option String) :
    Except Unit Obj :=
  match keyOf key with
  | some k =>
    asyncKeyedCase S k
      (fun ef => setF (setF (setF ef "data" pl) "error" .null) "pending" (.bool false))
      [("data", pl), ("error", .null), ("pending", .bool false)]
  | none =>
    .ok (setF (setF (setF S "data" pl) "error" .null) "pending" (.bool false))

/-- `case FAIL` (lines 401-423).  Note the fresh keyed entry is built
with `pending: true` (line 416), reproducing the source. -/
def asyncFail (defaultState S : Obj) (pl : JsVal) (key : Option String) :
    Except Unit Obj :=
  match keyOf key with
  | some k =>
    asyncKeyedCase S k
      (fun ef => setF (setF ef "error" pl) "pending" (.bool false))
      (mergeF defaultState [("error", pl), ("pending", .bool true)])
  | none => .ok (setF (setF S "error" pl) "pending" (.bool false))

/-- lodash `_.unset(draftState, path)` restricted to dot paths: walk all
path segments but the last through object fields, and delete the last
segment's field from the parent reached; when the walk meets a value
that is not an object, nothing is deleted.  (Bracket or quote syntax in
a path never reaches this model: theorems about keyed RESET restrict the
key to bracket-free strings, for which lodash's `stringToPath` is
exactly a split on dots.) -/
def unsetPath : Obj → List String → Obj
  | o, [] => o
  | o, [k] => removeF o k
  | o, k :: k2 :: rest =>
    match getF o k with
    | .obj f => setF o k (.obj (unsetPath f (k2 :: rest)))
    | _ => o

/-- lodash `stringToPath` restricted to bracket-free, quote-free path
strings: split the character list on dots. -/
def splitDots : List Char → List (List Char)
  | [] => [[]]
  | c :: t =>
    if c = '.' then [] :: splitDots t
    else
      match splitDots t with
      | h :: r => (c :: h) :: r
      | [] => [[c]]

/-- `_.unset(draftState, "dataEntity." + key)` (line 432).  lodash's
`castPath` first checks `isKey`: a path string that contains a dot (as
`"dataEntity." + key` always does) is taken atomically only when it is
itself a key of the object; otherwise it is split into segments by
`stringToPath`, which for bracket-free strings is a split on dots. -/
def lodashUnsetDE (S : Obj) (k : String) : Obj :=
  let pathStr := "dataEntity." ++ k
  if hasF S pathStr then removeF S pathStr
  else unsetPath S ((splitDots pathStr.data).map (fun l => String.mk l))

/-- `case RESET` (lines 424-439). -/
def asyncReset (S : Obj) (key : Option String) : Except Unit Obj :=
  match keyOf key with
  | some k =>
    if k = "*" then .ok (removeF S "dataEntity")
    else .ok (lodashUnsetDE S k)
  | none =>
    .ok (setF (setF (setF S "data" .null) "error" .null) "pending" (.bool false))

/-- The reducer returned by `createAsyncReducer(p, init)` (lines
339-444): dispatch on the four derived action types, `default` returns
the state unchanged.

Modelled from the spec: the derived action type strings come from
`ActionTypeMaker` in `src/actionKits.ts`, which is not part of the
provided sources; spec section 4.1 defines them as the main action type
suffixed with `"_PENDING"`, `"_SUCCESS"`, `"_FAIL"`, `"_RESET"` (and,
for the paging reducer, `"_UPDATE"`, `"_ADD_LAST"`, `"_ADD_FIRST"`,
`"_REPLACE"`, `"_REMOVE"`). -/
def asyncReducer (p : String) (init : Obj) (S : Obj) (a : IAsyncAction) :
    Except Unit Obj :=
  if a.type = p ++ "_PENDING" then asyncPending (asyncDefaultState init) S a.key
  else if a.type = p ++ "_SUCCESS" then asyncSuccess S a.payload a.key
  else if a.type = p ++ "_FAIL" then asyncFail (asyncDefaultState init) S a.payload a.key
  else if a.type = p ++ "_RESET" then asyncReset S a.key
  else .ok S

/-! ## createAsyncPagingReducer (src/configure.ts lines 528-658)

Same conventions as above.  `const { ... } = action.payload` throws a
TypeError when the payload is null or undefined, as does reading
`payload.id`; those paths are `Except.error ()`.  Calling
`draftState.data.push` / `.unshift` / `.findIndex` / `.splice` on a
`data` field that is not an array also throws (the model maps every
non-array there to the error path; a non-array object with those methods
cannot arise from the `IAsyncPagingData[]` state type). -/

/-- `data && Array.isArray(data) ? data : []` (line 575): a non-array
`data` is replaced by the empty list (an array is always truthy, so the
truthiness guard adds nothing). -/
def coerceArr : JsVal → List JsVal
  | .arr ys => ys
  | _ => []

/-- `defaultAsyncPagingState` (lines 165-171). -/
def defaultAsyncPagingState : Obj :=
  [("data", .arr []), ("offset", .int 0), ("pending", .bool false),
   ("error", .null), ("hasMore", .bool true)]

/-- `defaultState = { ...defaultAsyncPagingState, ...initialState }`
(lines 532-535). -/
def pagingDefaultState (init : Obj) : Obj := mergeF defaultAsyncPagingState init

/-- `case PENDING` (lines 549-567): destructure `{ clear, ...rest }`,
optionally clear the list and offset, merge the remaining payload
fields, then set `pending = true` and `hasMore = true`. -/
def pagingPending (S : Obj) (pl : JsVal) : Except Unit Obj :=
  if pl.isNullish then .error ()
  else
    let rest := removeF (objFields pl) "clear"
    let s1 := if (propGet pl "clear").truthy
      then setF (setF S "data" (.arr [])) "offset" (.int 0) else S
    let s2 := mergeF s1 rest
    .ok (setF (setF s2 "pending" (.bool true)) "hasMore" (.bool true))

/-- `case SUCCESS` (lines 568-596): destructure
`{ data, firstOffset, ...rest }`, coerce a non-array `data` to `[]`,
replace or append the list, set `offset`, `hasMore`, `error`, merge the
remaining payload fields, then set `pending = false`. -/
def pagingSuccess (S : Obj) (pl : JsVal) : Except Unit Obj :=
  if pl.isNullish then .error ()
  else
    let rest := removeF (removeF (objFields pl) "data") "firstOffset"
    let newData := coerceArr (propGet pl "data")
    let len := newData.length
    let fo := (propGet pl "firstOffset").truthy
    let withData : Except Unit Obj :=
      if fo then .ok (setF S "data" (.arr newData))
      else match getF S "data" with
        | .arr xs => .ok (setF S "data" (.arr (xs ++ newData)))
        | _ => .error ()
    match withData with
    | .ok s1 =>
      let offV := if fo then JsVal.int len else jsAddInt (getF S "offset") len
      let s2 := setF (setF (setF s1 "offset" offV)
        "hasMore" (.bool (decide (0 < len)))) "error" .null
      .ok (setF (mergeF s2 rest) "pending" (.bool false))
    | .error e => .error e

/-- `case ADD_LAST` (lines 597-601). -/
def pagingAddLast (S : Obj) (pl : JsVal) : Except Unit Obj :=
  match getF S "data" with
  | .arr xs =>
    .ok (setF (setF S "data" (.arr (xs ++ [pl]))) "offset"
      (jsAddInt (getF S "offset") 1))
  | _ => .error ()

/-- `case ADD_FIRST` (lines 602-606). -/
def pagingAddFirst (S : Obj) (pl : JsVal) : Except Unit Obj :=
  match getF S "data" with
  | .arr xs =>
    .ok (setF (setF S "data" (.arr (pl :: xs))) "offset"
      (jsAddInt (getF S "offset") 1))
  | _ => .error ()

/-- `findIndex((e) => e.id === target)` over the items of `data`.  The
callback reads `e.id`; on a null or undefined item that read would
throw, which the model does not track (every theorem that inspects a
find result assumes the items are objects, as the state type
guarantees). -/
def findIdxById (xs : List JsVal) (target : JsVal) : Option Nat :=
  xs.findIdx? (fun e => strictEq (propGet e "id") target)

/-- `case UPDATE` (lines 607-621): guarded by `if (draftState.data)`;
the callback also reads `updateData.id`, which throws on a nullish
payload, but only when the list is non-empty (`findIndex` never invokes
the callback on an empty array).  A matched item is replaced by
`{ ...updateData }`. -/
def pagingUpdate (S : Obj) (pl : JsVal) : Except Unit Obj :=
  if (getF S "data").truthy then
    match getF S "data" with
    | .arr xs =>
      if xs.isEmpty then .ok S
      else if pl.isNullish then .error ()
      else match findIdxById xs (propGet pl "id") with
        | some i => .ok (setF S "data" (.arr (xs.set i (.obj (objFields pl)))))
        | none => .ok S
    | _ => .error ()
  else .ok S

/-- `case REPLACE` (lines 622-637): reads `payload.id` (throws on a
nullish payload), then replaces the matched item with `payload.data`
only when the latter is truthy and not an array. -/
def pagingReplace (S : Obj) (pl : JsVal) : Except Unit Obj :=
  if pl.isNullish then .error ()
  else
    let searchId := propGet pl "id"
    match getF S "data" with
    | .arr xs =>
      match findIdxById xs searchId with
      | some i =>
        let pd := propGet pl "data"
        if pd.truthy && !pd.isArrV then .ok (setF S "data" (.arr (xs.set i pd)))
        else .ok S
      | none => .ok S
    | _ => .error ()

/-- `case REMOVE` (lines 638-646): `splice(index, 1)` on the first item
whose `id` strictly equals the payload, decrementing `offset`. -/
def pagingRemove (S : Obj) (pl : JsVal) : Except Unit Obj :=
  match getF S "data" with
  | .arr xs =>
    match findIdxById xs pl with
    | some i =>
      .ok (setF (setF S "data" (.arr (xs.eraseIdx i))) "offset"
        (jsAddInt (getF S "offset") (-1)))
    | none => .ok S
  | _ => .error ()

/-- `case FAIL` (lines 647-651). -/
def pagingFail (S : Obj) (pl : JsVal) : Except Unit Obj :=
  .ok (setF (setF S "error" pl) "pending" (.bool false))

/-- The reducer returned by `createAsyncPagingReducer(p, init)` (lines
528-658): dispatch on the nine derived action types in the source's
`case` order; RESET (lines 652-653) returns `produce(defaultState,
() => {})`, i.e. the full default state; `default` returns the state
unchanged.  Derived type strings as in `asyncReducer` (modelled from
spec section 4.1). -/
def pagingReducer (p : String) (init : Obj) (S : Obj) (a : IAsyncAction) :
    Except Unit Obj :=
  if a.type = p ++ "_PENDING" then pagingPending S a.payload
  else if a.type = p ++ "_SUCCESS" then pagingSuccess S a.payload
  else if a.type = p ++ "_ADD_LAST" then pagingAddLast S a.payload
  else if a.type = p ++ "_ADD_FIRST" then pagingAddFirst S a.payload
  else if a.type = p ++ "_UPDATE" then pagingUpdate S a.payload
  else if a.type = p ++ "_REPLACE" then pagingReplace S a.payload
  else if a.type = p ++ "_REMOVE" then pagingRemove S a.payload
  else if a.type = p ++ "_FAIL" then pagingFail S a.payload
  else if a.type = p ++ "_RESET" then .ok (pagingDefaultState init)
  else .ok S

/-! ## createReducerBatch (src/configure.ts lines 191-210) -/

/-- The per-key reducer built by the `createReducerBatch` loop (lines
196-206): `initialState = option[1] || null`, defaulted in when the
incoming state is `undefined`; a matching action type returns the
payload, anything else returns the state. -/
def batchReducer (actionType : String) (init : JsVal) (state : JsVal)
    (a : IAsyncAction) : JsVal :=
  let initialState := if init.truthy then init else JsVal.null
  let st := match state with
    | .undefined => initialState
    | s => s
  if a.type = actionType then a.payload else st

/-- `createReducerBatch(init)` (lines 191-210): one `batchReducer` per
entry, keyed by the entry's name.  An entry is `(name, (actionType,
initialState))`. -/
def createReducerBatch (entries : List (String × String × JsVal)) :
    List (String × (JsVal → IAsyncAction → JsVal)) :=
  entries.map (fun e => (e.1, batchReducer e.2.1 e.2.2))

/-! ## Basic lemmas about the object operations -/

theorem getF_setF_self (o : Obj) (k : String) (v : JsVal) :
    getF (setF o k v) k = v := by
  induction o with
  | nil => simp [setF, getF]
  | cons e t ih =>
    obtain ⟨k', v'⟩ := e
    by_cases hk : k' = k
    · simp [setF, hk, getF]
    · simp [setF, hk, getF, ih]

theorem getF_setF_ne (o : Obj) (k : String) (v : JsVal) (k2 : String)
    (h : k2 ≠ k) : getF (setF o k v) k2 = getF o k2 := by
  induction o with
  | nil => simp [setF, getF, Ne.symm h]
  | cons e t ih =>
    obtain ⟨k', v'⟩ := e
    by_cases hk : k' = k
    · subst hk
      simp [setF, getF, Ne.symm h]
    · by_cases hk2 : k' = k2 <;> simp [setF, hk, getF, hk2, ih, h]

theorem hasF_setF_ne (o : Obj) (k : String) (v : JsVal) (k2 : String)
    (h : k2 ≠ k) : hasF (setF o k v) k2 = hasF o k2 := by
  induction o with
  | nil => simp [setF, hasF, Ne.symm h]
  | cons e t ih =>
    obtain ⟨k', v'⟩ := e
    by_cases hk : k' = k
    · subst hk
      simp [setF, hasF, Ne.symm h]
    · simp [setF, hk, hasF, ih, h]

theorem getF_removeF_ne (o : Obj) (k k2 : String) (h : k2 ≠ k) :
    getF (removeF o k) k2 = getF o k2 := by
  induction o with
  | nil => simp [removeF, getF]
  | cons e t ih =>
    obtain ⟨k', v'⟩ := e
    by_cases hk : k' = k
    · subst hk
      simp [removeF, getF, Ne.symm h, ih]
    · by_cases hk2 : k' = k2 <;> simp [removeF, getF, hk, hk2, ih, h]

theorem hasF_removeF_self (o : Obj) (k : String) :
    hasF (removeF o k) k = false := by
  induction o with
  | nil => simp [removeF, hasF]
  | cons e t ih =>
    obtain ⟨k', v'⟩ := e
    by_cases hk : k' = k
    · simp [removeF, hk, ih]
    · simp [removeF, hk, hasF, ih]

theorem hasF_removeF_ne (o : Obj) (k k2 : String) (h : k2 ≠ k) :
    hasF (removeF o k) k2 = hasF o k2 := by
  induction o with
  | nil => simp [removeF, hasF]
  | cons e t ih =>
    obtain ⟨k', v'⟩ := e
    by_cases hk : k' = k
    · subst hk
      simp [removeF, hasF, Ne.symm h, ih]
    · simp [removeF, hk, hasF, ih]

theorem removeF_sublist (o : Obj) (k : String) : List.Sublist (removeF o k) o := by
  induction o with
  | nil => simp [removeF]
  | cons e t ih =>
    obtain ⟨k', v'⟩ := e
    by_cases hk : k' = k
    · simpa [removeF, hk] using ih.cons (k', v')
    · simpa [removeF, hk] using ih.cons₂ (k', v')

theorem keysNodup_removeF (o : Obj) (k : String) (h : keysNodup o) :
    keysNodup (removeF o k) := by
  unfold keysNodup at *
  exact h.sublist ((removeF_sublist o k).map Prod.fst)

theorem getF_mergeF_not_has (o r : Obj) (k : String) (h : hasF r k = false) :
    getF (mergeF o r) k = getF o k := by
  induction r generalizing o with
  | nil => simp [mergeF]
  | cons e t ih =>
    obtain ⟨k1, v1⟩ := e
    simp only [hasF, Bool.or_eq_false_iff, decide_eq_false_iff_not] at h
    have hm : mergeF o ((k1, v1) :: t) = mergeF (setF o k1 v1) t := rfl
    rw [hm, ih (setF o k1 v1) h.2, getF_setF_ne _ _ _ _ (Ne.symm h.1)]

theorem hasF_mergeF_not_has (o r : Obj) (k : String) (h : hasF r k = false) :
    hasF (mergeF o r) k = hasF o k := by
  induction r generalizing o with
  | nil => simp [mergeF]
  | cons e t ih =>
    obtain ⟨k1, v1⟩ := e
    simp only [hasF, Bool.or_eq_false_iff, decide_eq_false_iff_not] at h
    have hm : mergeF o ((k1, v1) :: t) = mergeF (setF o k1 v1) t := rfl
    rw [hm, ih (setF o k1 v1) h.2, hasF_setF_ne _ _ _ _ (Ne.symm h.1)]

theorem hasF_false_of_not_mem_keys (r : Obj) (k : String)
    (hnd : k ∉ r.map Prod.fst) : hasF r k = false := by
  induction r with
  | nil => rfl
  | cons e t ih =>
    simp only [List.map_cons, List.mem_cons] at hnd
    push_neg at hnd
    simp [hasF, ih hnd.2, Ne.symm hnd.1]

theorem getF_mergeF_has (o r : Obj) (k : String) (hnd : keysNodup r)
    (h : hasF r k = true) : getF (mergeF o r) k = getF r k := by
  induction r generalizing o with
  | nil => simp [hasF] at h
  | cons e t ih =>
    obtain ⟨k1, v1⟩ := e
    have hm : mergeF o ((k1, v1) :: t) = mergeF (setF o k1 v1) t := rfl
    unfold keysNodup at hnd
    simp only [List.map_cons, List.nodup_cons] at hnd
    by_cases hk : k1 = k
    · subst hk
      have ht : hasF t k1 = false := hasF_false_of_not_mem_keys t k1 hnd.1
      rw [hm, getF_mergeF_not_has _ _ _ ht, getF_setF_self]
      simp [getF]
    · simp only [hasF, hk, decide_eq_true_eq, Bool.false_or] at h
      rw [hm, ih (setF o k1 v1) hnd.2 ?_]
      · simp [getF, hk]
      · cases hh : hasF t k
        · rw [hh] at h
          simp [hk] at h
        · rfl

/-! ## Dispatch lemmas: which `case` a derived action type selects -/

theorem append_ne_of_ne (p : String) {s t : String} (h : s ≠ t) :
    p ++ s ≠ p ++ t := by
  intro he
  apply h
  have hd := congrArg String.data he
  rw [String.data_append, String.data_append] at hd
  exact String.ext (List.append_cancel_left hd)

theorem asyncReducer_at_pending (p : String) (init S : Obj) (pl : JsVal)
    (key : Option String) :
    asyncReducer p init S ⟨p ++ "_PENDING", pl, key⟩ =
      asyncPending (asyncDefaultState init) S key := by
  simp only [asyncReducer, if_true, eq_self_iff_true]

theorem asyncReducer_at_success (p : String) (init S : Obj) (pl : JsVal)
    (key : Option String) :
    asyncReducer p init S ⟨p ++ "_SUCCESS", pl, key⟩ = asyncSuccess S pl key := by
  simp only [asyncReducer, if_neg (append_ne_of_ne p (show "_SUCCESS" ≠ "_PENDING" by decide)),
    if_true, eq_self_iff_true]

theorem asyncReducer_at_fail (p : String) (init S : Obj) (pl : JsVal)
    (key : Option String) :
    asyncReducer p init S ⟨p ++ "_FAIL", pl, key⟩ =
      asyncFail (asyncDefaultState init) S pl key := by
  simp only [asyncReducer, if_neg (append_ne_of_ne p (show "_FAIL" ≠ "_PENDING" by decide)),
    if_neg (append_ne_of_ne p (show "_FAIL" ≠ "_SUCCESS" by decide)),
    if_true, eq_self_iff_true]

theorem asyncReducer_at_reset (p : String) (init S : Obj) (pl : JsVal)
    (key : Option String) :
    asyncReducer p init S ⟨p ++ "_RESET", pl, key⟩ = asyncReset S key := by
  simp only [asyncReducer, if_neg (append_ne_of_ne p (show "_RESET" ≠ "_PENDING" by decide)),
    if_neg (append_ne_of_ne p (show "_RESET" ≠ "_SUCCESS" by decide)),
    if_neg (append_ne_of_ne p (show "_RESET" ≠ "_FAIL" by decide)),
    if_true, eq_self_iff_true]

theorem pagingReducer_at_pending (p : String) (init S : Obj) (pl : JsVal)
    (key : Option String) :
    pagingReducer p init S ⟨p ++ "_PENDING", pl, key⟩ = pagingPending S pl := by
  simp only [pagingReducer, if_true, eq_self_iff_true]

theorem pagingReducer_at_success (p : String) (init S : Obj) (pl : JsVal)
    (key : Option String) :
    pagingReducer p init S ⟨p ++ "_SUCCESS", pl, key⟩ = pagingSuccess S pl := by
  simp only [pagingReducer, if_neg (append_ne_of_ne p (show "_SUCCESS" ≠ "_PENDING" by decide)),
    if_true, eq_self_iff_true]

theorem pagingReducer_at_add_last (p : String) (init S : Obj) (pl : JsVal)
    (key : Option String) :
    pagingReducer p init S ⟨p ++ "_ADD_LAST", pl, key⟩ = pagingAddLast S pl := by
  simp only [pagingReducer, if_neg (append_ne_of_ne p (show "_ADD_LAST" ≠ "_PENDING" by decide)),
    if_neg (append_ne_of_ne p (show "_ADD_LAST" ≠ "_SUCCESS" by decide)),
    if_true, eq_self_iff_true]

theorem pagingReducer_at_add_first (p : String) (init S : Obj) (pl : JsVal)
    (key : Option String) :
    pagingReducer p init S ⟨p ++ "_ADD_FIRST", pl, key⟩ = pagingAddFirst S pl := by
  simp only [pagingReducer, if_neg (append_ne_of_ne p (show "_ADD_FIRST" ≠ "_PENDING" by decide)),
    if_neg (append_ne_of_ne p (show "_ADD_FIRST" ≠ "_SUCCESS" by decide)),
    if_neg (append_ne_of_ne p (show "_ADD_FIRST" ≠ "_ADD_LAST" by decide)),
    if_true, eq_self_iff_true]

theorem pagingReducer_at_update (p : String) (init S : Obj) (pl : JsVal)
    (key : Option String) :
    pagingReducer p init S ⟨p ++ "_UPDATE", pl, key⟩ = pagingUpdate S pl := by
  simp only [pagingReducer, if_neg (append_ne_of_ne p (show "_UPDATE" ≠ "_PENDING" by decide)),
    if_neg (append_ne_of_ne p (show "_UPDATE" ≠ "_SUCCESS" by decide)),
    if_neg (append_ne_of_ne p (show "_UPDATE" ≠ "_ADD_LAST" by decide)),
    if_neg (append_ne_of_ne p (show "_UPDATE" ≠ "_ADD_FIRST" by decide)),
    if_true, eq_self_iff_true]

theorem pagingReducer_at_replace (p : String) (init S : Obj) (pl : JsVal)
    (key : Option String) :
    pagingReducer p init S ⟨p ++ "_REPLACE", pl, key⟩ = pagingReplace S pl := by
  simp only [pagingReducer, if_neg (append_ne_of_ne p (show "_REPLACE" ≠ "_PENDING" by decide)),
    if_neg (append_ne_of_ne p (show "_REPLACE" ≠ "_SUCCESS" by decide)),
    if_neg (append_ne_of_ne p (show "_REPLACE" ≠ "_ADD_LAST" by decide)),
    if_neg (append_ne_of_ne p (show "_REPLACE" ≠ "_ADD_FIRST" by decide)),
    if_neg (append_ne_of_ne p (show "_REPLACE" ≠ "_UPDATE" by decide)),
    if_true, eq_self_iff_true]

theorem pagingReducer_at_remove (p : String) (init S : Obj) (pl : JsVal)
    (key : Option String) :
    pagingReducer p init S ⟨p ++ "_REMOVE", pl, key⟩ = pagingRemove S pl := by
  simp only [pagingReducer, if_neg (append_ne_of_ne p (show "_REMOVE" ≠ "_PENDING" by decide)),
    if_neg (append_ne_of_ne p (show "_REMOVE" ≠ "_SUCCESS" by decide)),
    if_neg (append_ne_of_ne p (show "_REMOVE" ≠ "_ADD_LAST" by decide)),
    if_neg (append_ne_of_ne p (show "_REMOVE" ≠ "_ADD_FIRST" by decide)),
    if_neg (append_ne_of_ne p (show "_REMOVE" ≠ "_UPDATE" by decide)),
    if_neg (append_ne_of_ne p (show "_REMOVE" ≠ "_REPLACE" by decide)),
    if_true, eq_self_iff_true]

theorem pagingReducer_at_fail (p : String) (init S : Obj) (pl : JsVal)
    (key : Option String) :
    pagingReducer p init S ⟨p ++ "_FAIL", pl, key⟩ = pagingFail S pl := by
  simp only [pagingReducer, if_neg (append_ne_of_ne p (show "_FAIL" ≠ "_PENDING" by decide)),
    if_neg (append_ne_of_ne p (show "_FAIL" ≠ "_SUCCESS" by decide)),
    if_neg (append_ne_of_ne p (show "_FAIL" ≠ "_ADD_LAST" by decide)),
    if_neg (append_ne_of_ne p (show "_FAIL" ≠ "_ADD_FIRST" by decide)),
    if_neg (append_ne_of_ne p (show "_FAIL" ≠ "_UPDATE" by decide)),
    if_neg (append_ne_of_ne p (show "_FAIL" ≠ "_REPLACE" by decide)),
    if_neg (append_ne_of_ne p (show "_FAIL" ≠ "_REMOVE" by decide)),
    if_true, eq_self_iff_true]

theorem pagingReducer_at_reset (p : String) (init S : Obj) (pl : JsVal)
    (key : Option String) :
    pagingReducer p init S ⟨p ++ "_RESET", pl, key⟩ =
      .ok (pagingDefaultState init) := by
  simp only [pagingReducer, if_neg (append_ne_of_ne p (show "_RESET" ≠ "_PENDING" by decide)),
    if_neg (append_ne_of_ne p (show "_RESET" ≠ "_SUCCESS" by decide)),
    if_neg (append_ne_of_ne p (show "_RESET" ≠ "_ADD_LAST" by decide)),
    if_neg (append_ne_of_ne p (show "_RESET" ≠ "_ADD_FIRST" by decide)),
    if_neg (append_ne_of_ne p (show "_RESET" ≠ "_UPDATE" by decide)),
    if_neg (append_ne_of_ne p (show "_RESET" ≠ "_REPLACE" by decide)),
    if_neg (append_ne_of_ne p (show "_RESET" ≠ "_REMOVE" by decide)),
    if_neg (append_ne_of_ne p (show "_RESET" ≠ "_FAIL" by decide)),
    if_true, eq_self_iff_true]

/-! ## Well-formedness of states, and helper lemmas for the keyed cases -/

/-- The branch result is `ok` (no TypeError was thrown). -/
def exOk : Except Unit Obj → Bool
  | .ok _ => true
  | .error _ => false

/-- Well-formed simple async state, as the TypeScript type `IAsyncState`
guarantees: the `dataEntity` field is absent (or null), or an object
whose present entries are objects or falsy. -/
def asyncWFb (S : Obj) : Bool :=
  match getF S "dataEntity" with
  | .undefined => true
  | .null => true
  | .obj df => df.all (fun e => e.2.isObjV || !e.2.truthy)
  | _ => false

/-- Well-formed paging `data` field, as the TypeScript type
`IAsyncPagingData[]` guarantees: an array whose items are objects. -/
def isArrOfObjs : JsVal → Bool
  | .arr xs => xs.all JsVal.isObjV
  | _ => false

theorem asyncKeyedCase_fresh (S : Obj) (k : String) (upd : Obj → Obj)
    (fresh : Obj)
    (hde : getF S "dataEntity" = .undefined ∨
      ∃ df, getF S "dataEntity" = .obj df ∧ getF df k = .undefined) :
    ∃ df2, asyncKeyedCase S k upd fresh = .ok (setF S "dataEntity" (.obj df2)) ∧
      getF df2 k = .obj fresh := by
  rcases hde with hde | ⟨df, hdf, hent⟩
  · refine ⟨setF [] k (.obj fresh), ?_, getF_setF_self _ _ _⟩
    simp [asyncKeyedCase, hde, JsVal.truthy, getF]
  · refine ⟨setF df k (.obj fresh), ?_, getF_setF_self _ _ _⟩
    simp [asyncKeyedCase, hdf, JsVal.truthy, hent]

/-! ## The claims -/

/-- C1: for the simple async reducer, a SUCCESS action with payload `X`
and no key yields a state with `data = X`, `error = null`,
`pending = false`, regardless of the prior state. -/
theorem C1_success_no_key (p : String) (init : Obj) (S : Obj) (X : JsVal) :
    ∃ r, asyncReducer p init S ⟨p ++ "_SUCCESS", X, none⟩ = .ok r ∧
      getF r "data" = X ∧ getF r "error" = .null ∧
      getF r "pending" = .bool false := by
  refine ⟨setF (setF (setF S "data" X) "error" .null) "pending" (.bool false),
    ?_, ?_, ?_, ?_⟩
  · rw [asyncReducer_at_success]; rfl
  · rw [getF_setF_ne _ _ _ _ (by decide), getF_setF_ne _ _ _ _ (by decide),
      getF_setF_self]
  · rw [getF_setF_ne _ _ _ _ (by decide), getF_setF_self]
  · rw [getF_setF_self]

/-- C5: for the simple async reducer, a FAIL action with payload `E` and
no key yields `error = E`, `pending = false`, and leaves the `data`
field and the whole `dataEntity` mapping exactly as in the prior
state. -/
theorem C5_fail_no_key_frame (p : String) (init : Obj) (S : Obj) (E : JsVal) :
    ∃ r, asyncReducer p init S ⟨p ++ "_FAIL", E, none⟩ = .ok r ∧
      getF r "error" = E ∧ getF r "pending" = .bool false ∧
      getF r "data" = getF S "data" ∧
      getF r "dataEntity" = getF S "dataEntity" := by
  refine ⟨setF (setF S "error" E) "pending" (.bool false), ?_, ?_, ?_, ?_, ?_⟩
  · rw [asyncReducer_at_fail]; rfl
  · rw [getF_setF_ne _ _ _ _ (by decide), getF_setF_self]
  · rw [getF_setF_self]
  · rw [getF_setF_ne _ _ _ _ (by decide), getF_setF_ne _ _ _ _ (by decide)]
  · rw [getF_setF_ne _ _ _ _ (by decide), getF_setF_ne _ _ _ _ (by decide)]

/-- C7: the paging reducer's RESET action returns the full default state
(the default paging state merged with the constructor's initial state),
discarding every field of the prior state, whatever key or payload the
action carries. -/
theorem C7_paging_reset_default (p : String) (init S : Obj) (pl : JsVal)
    (key : Option String) :
    pagingReducer p init S ⟨p ++ "_RESET", pl, key⟩ =
      .ok (pagingDefaultState init) := by
  rw [pagingReducer_at_reset]

/-- C3: each reducer returns the incoming state itself when the action
type matches none of that reducer's own derived action types: for the
simple reducer these are the four types PENDING/SUCCESS/FAIL/RESET
(lines 348-351), and the simple-reducer identity needs nothing else; for
the paging reducer they are its nine derived types (lines 537-545).
The source's `default` case returns the `state` argument unchanged, so
reference equality holds in JavaScript; the model returns the same
state value. -/
theorem C3_unmatched_type_identity (p : String) (initA initP : Obj)
    (S SP : Obj) (t : String) (pl : JsVal) (key : Option String)
    (h1 : t ≠ p ++ "_PENDING") (h2 : t ≠ p ++ "_SUCCESS")
    (h3 : t ≠ p ++ "_FAIL") (h4 : t ≠ p ++ "_RESET") :
    asyncReducer p initA S ⟨t, pl, key⟩ = .ok S ∧
      (t ≠ p ++ "_UPDATE" → t ≠ p ++ "_ADD_LAST" →
        t ≠ p ++ "_ADD_FIRST" → t ≠ p ++ "_REPLACE" →
        t ≠ p ++ "_REMOVE" →
        pagingReducer p initP SP ⟨t, pl, key⟩ = .ok SP) := by
  constructor
  · simp only [asyncReducer, if_neg h1, if_neg h2, if_neg h3, if_neg h4]
  · intro h5 h6 h7 h8 h9
    simp only [pagingReducer, if_neg h1, if_neg h2, if_neg h6, if_neg h7,
      if_neg h5, if_neg h8, if_neg h9, if_neg h3, if_neg h4]

/-- Witness for C3 at a concrete unrelated action type, exercising both
the simple-reducer identity and the paging identity (the latter includes
a type that is a derived type of the paging reducer only: the simple
reducer also leaves the state unchanged on `FETCH_UPDATE`). -/
theorem C3_unmatched_type_identity_witness :
    asyncReducer "FETCH" [] defaultAsyncState ⟨"UNRELATED", .null, none⟩ =
        .ok defaultAsyncState ∧
      pagingReducer "FETCH" [] defaultAsyncPagingState
        ⟨"UNRELATED", .null, none⟩ = .ok defaultAsyncPagingState ∧
      asyncReducer "FETCH" [] defaultAsyncState
        ⟨"FETCH" ++ "_UPDATE", .null, none⟩ = .ok defaultAsyncState :=
  have h := C3_unmatched_type_identity "FETCH" [] [] defaultAsyncState
    defaultAsyncPagingState "UNRELATED" .null none (by decide) (by decide)
    (by decide) (by decide)
  have h2 := C3_unmatched_type_identity "FETCH" [] [] defaultAsyncState
    defaultAsyncPagingState ("FETCH" ++ "_UPDATE") .null none (by decide)
    (by decide) (by decide) (by decide)
  ⟨h.1, h.2 (by decide) (by decide) (by decide) (by decide) (by decide),
    h2.1⟩

/-- C4: for the simple async reducer, a FAIL action with a non-empty key
`k` whose entry does not yet exist (including an absent `dataEntity`)
creates `dataEntity[k]` as the reducer's default state overridden with
`error = E` and `pending = true` — pending is `true`, not `false`,
reproducing source line 416. -/
theorem C4_fail_creates_pending_entry (p : String) (init : Obj) (S : Obj)
    (k : String) (E : JsVal) (hk : k ≠ "")
    (hde : getF S "dataEntity" = .undefined ∨
      ∃ df, getF S "dataEntity" = .obj df ∧ getF df k = .undefined) :
    ∃ r, asyncReducer p init S ⟨p ++ "_FAIL", E, some k⟩ = .ok r ∧
      ∃ df2, getF r "dataEntity" = .obj df2 ∧
        getF df2 k = .obj (mergeF (asyncDefaultState init)
          [("error", E), ("pending", .bool true)]) ∧
        getF (mergeF (asyncDefaultState init)
          [("error", E), ("pending", .bool true)]) "pending" = .bool true := by
  rw [asyncReducer_at_fail]
  have hkey : keyOf (some k) = some k := by simp [keyOf, hk]
  obtain ⟨df2, hcase, hget⟩ := asyncKeyedCase_fresh S k
    (fun ef => setF (setF ef "error" E) "pending" (.bool false))
    (mergeF (asyncDefaultState init) [("error", E), ("pending", .bool true)])
    hde
  refine ⟨setF S "dataEntity" (.obj df2), ?_, df2, getF_setF_self _ _ _, hget, ?_⟩
  · simp only [asyncFail, hkey]
    exact hcase
  · have hm : mergeF (asyncDefaultState init) [("error", E), ("pending", .bool true)] =
        setF (setF (asyncDefaultState init) "error" E) "pending" (.bool true) := rfl
    rw [hm, getF_setF_self]

/-- Witness for C4: a state with no `dataEntity` at all. -/
theorem C4_fail_creates_pending_entry_witness :
    ∃ r, asyncReducer "FETCH" [] defaultAsyncState
        ⟨"FETCH" ++ "_FAIL", .int 1, some "a"⟩ = .ok r ∧
      ∃ df2, getF r "dataEntity" = .obj df2 ∧
        getF df2 "a" = .obj (mergeF (asyncDefaultState [])
          [("error", .int 1), ("pending", .bool true)]) ∧
        getF (mergeF (asyncDefaultState [])
          [("error", .int 1), ("pending", .bool true)]) "pending" =
          .bool true :=
  C4_fail_creates_pending_entry "FETCH" [] defaultAsyncState "a" (.int 1)
    (by decide) (Or.inl rfl)

/-! ## C6: RESET and the lodash path semantics of keyed RESET -/

theorem stringMkData (k : String) : String.mk k.data = k := by
  cases k
  rfl

theorem splitDots_no_dot (l : List Char) (h : ∀ c ∈ l, c ≠ '.') :
    splitDots l = [l] := by
  induction l with
  | nil => rfl
  | cons c t ih =>
    have hc : ¬ c = '.' := h c (List.mem_cons_self c t)
    have ht := ih (fun x hx => h x (List.mem_cons_of_mem c hx))
    simp [splitDots, hc, ht]

theorem splitDots_append_dot (l1 l2 : List Char) (h1 : ∀ c ∈ l1, c ≠ '.') :
    splitDots (l1 ++ '.' :: l2) = l1 :: splitDots l2 := by
  induction l1 with
  | nil => simp [splitDots]
  | cons c t ih =>
    have hc : ¬ c = '.' := h1 c (List.mem_cons_self c t)
    have ht := ih (fun x hx => h1 x (List.mem_cons_of_mem c hx))
    simp [splitDots, hc, ht]

/-- For a dot-free key, lodash's path for `"dataEntity." + k` is exactly
`["dataEntity", k]`. -/
theorem splitDots_dataEntity (k : String) (h : ∀ c ∈ k.data, c ≠ '.') :
    (splitDots ("dataEntity." ++ k).data).map (fun l => String.mk l) =
      ["dataEntity", k] := by
  have hd : ("dataEntity." ++ k).data = "dataEntity".data ++ '.' :: k.data := by
    rw [String.data_append]
    rfl
  rw [hd, splitDots_append_dot _ _ (by decide), splitDots_no_dot k.data h]
  simp only [List.map_cons, List.map_nil, stringMkData]

/-- C6 (amended): unkeyed RESET clears `data`/`error`/`pending` at the
top level; RESET with key `"*"` removes the whole `dataEntity` mapping;
RESET with any other non-empty key `k` that contains no path-special
character (no dot or bracket, so that lodash treats
`"dataEntity." + k` as the two-segment path `["dataEntity", k]`) and
that does not collide with a literal top-level field named
`"dataEntity." + k` removes exactly `dataEntity[k]`, leaving sibling
entries and all other top-level fields unchanged.  (For a key containing
a dot the entry is not removed — see the counterexample.) -/
theorem C6_reset_amended (p : String) (init : Obj) (S : Obj) (k : String)
    (df : Obj) (pl : JsVal) :
    (∃ r, asyncReducer p init S ⟨p ++ "_RESET", pl, none⟩ = .ok r ∧
      getF r "data" = .null ∧ getF r "error" = .null ∧
      getF r "pending" = .bool false) ∧
    asyncReducer p init S ⟨p ++ "_RESET", pl, some "*"⟩ =
      .ok (removeF S "dataEntity") ∧
    (k ≠ "" → k ≠ "*" →
      (∀ c ∈ k.data, c ≠ '.' ∧ c ≠ '[' ∧ c ≠ ']') →
      hasF S ("dataEntity." ++ k) = false →
      getF S "dataEntity" = .obj df →
      ∃ r, asyncReducer p init S ⟨p ++ "_RESET", pl, some k⟩ = .ok r ∧
        getF r "dataEntity" = .obj (removeF df k) ∧
        hasF (removeF df k) k = false ∧
        (∀ k2, k2 ≠ k → getF (removeF df k) k2 = getF df k2) ∧
        (∀ k2, k2 ≠ "dataEntity" → getF r k2 = getF S k2)) := by
  refine ⟨⟨setF (setF (setF S "data" .null) "error" .null) "pending"
      (.bool false), ?_, ?_, ?_, ?_⟩, ?_, ?_⟩
  · rw [asyncReducer_at_reset]; rfl
  · rw [getF_setF_ne _ _ _ _ (by decide), getF_setF_ne _ _ _ _ (by decide),
      getF_setF_self]
  · rw [getF_setF_ne _ _ _ _ (by decide), getF_setF_self]
  · rw [getF_setF_self]
  · rw [asyncReducer_at_reset]
    simp [asyncReset, keyOf]
  · intro hk1 hk2 hkchars htop hde
    have hkey : keyOf (some k) = some k := by simp [keyOf, hk1]
    have hpath := splitDots_dataEntity k (fun c hc => (hkchars c hc).1)
    refine ⟨setF S "dataEntity" (.obj (removeF df k)), ?_,
      getF_setF_self _ _ _, hasF_removeF_self _ _,
      fun k2 h2 => getF_removeF_ne _ _ _ h2,
      fun k2 h2 => getF_setF_ne _ _ _ _ h2⟩
    rw [asyncReducer_at_reset]
    simp only [asyncReset, hkey, if_neg hk2]
    unfold lodashUnsetDE
    rw [if_neg (by rw [htop]; exact Bool.false_ne_true), hpath]
    show Except.ok (unsetPath S ["dataEntity", k]) = _
    unfold unsetPath
    rw [hde]
    rfl

/-- C6 counterexample: with `dataEntity = { "a.b": entry }`, RESET with
key `"a.b"` is claimed to remove `dataEntity["a.b"]`, but lodash `unset`
splits `"dataEntity.a.b"` into the path `["dataEntity", "a", "b"]` and
deletes nothing, so the entry is still present afterwards. -/
theorem C6_reset_dotted_key_counterexample :
    (asyncReducer "FETCH" []
        [("data", .null), ("pending", .bool false), ("error", .null),
         ("dataEntity", .obj [("a.b", .obj [("data", .int 5),
           ("pending", .bool false), ("error", .null)])])]
        ⟨"FETCH" ++ "_RESET", .null, some "a.b"⟩).map
      (fun r => hasF (objFields (getF r "dataEntity")) "a.b") = .ok true := by
  rfl

/-- Witness for C6 (amended): the keyed conjunct at a concrete state
with two keyed entries, and the unkeyed conjunct at the default state,
whose `dataEntity` field is absent. -/
theorem C6_reset_amended_witness :
    (asyncReducer "FETCH" []
        [("data", .null), ("pending", .bool false), ("error", .null),
         ("dataEntity", .obj [("x", .obj [("data", .int 1),
            ("pending", .bool false), ("error", .null)]),
          ("y", .obj [("data", .int 2), ("pending", .bool false),
            ("error", .null)])])]
        ⟨"FETCH" ++ "_RESET", .null, some "x"⟩).map
      (fun r => getF r "dataEntity") =
      .ok (.obj (removeF [("x", .obj [("data", .int 1),
        ("pending", .bool false), ("error", .null)]),
        ("y", .obj [("data", .int 2), ("pending", .bool false),
          ("error", .null)])] "x")) ∧
    (asyncReducer "FETCH" [] defaultAsyncState
        ⟨"FETCH" ++ "_RESET", .null, none⟩).map
      (fun r => getF r "pending") = .ok (.bool false) := by
  constructor
  · obtain ⟨-, -, hc⟩ := C6_reset_amended "FETCH" []
      [("data", .null), ("pending", .bool false), ("error", .null),
       ("dataEntity", .obj [("x", .obj [("data", .int 1),
          ("pending", .bool false), ("error", .null)]),
        ("y", .obj [("data", .int 2), ("pending", .bool false),
          ("error", .null)])])]
      "x"
      [("x", .obj [("data", .int 1), ("pending", .bool false),
        ("error", .null)]),
       ("y", .obj [("data", .int 2), ("pending", .bool false),
        ("error", .null)])]
      .null
    obtain ⟨r, hr, hde2, -, -, -⟩ :=
      hc (by decide) (by decide) (by decide) (by rfl) (by rfl)
    rw [hr]
    simp only [Except.map]
    rw [hde2]
  · obtain ⟨⟨r, hr, -, -, hpend⟩, -, -⟩ := C6_reset_amended "FETCH" []
      defaultAsyncState "x" [] .null
    rw [hr]
    simp only [Except.map]
    rw [hpend]

/-! ## C2: the paging SUCCESS transition -/

/-- Characterization of `pagingSuccess` on an object payload and a state
with an array `data` and numeric `offset`: the source's exact write
order — data, offset, hasMore, error, then the merge of the remaining
payload fields, then pending. -/
theorem pagingSuccess_eq (S : Obj) (plf : Obj) (xs : List JsVal) (n : Int)
    (hdata : getF S "data" = .arr xs) (hoff : getF S "offset" = .int n) :
    pagingSuccess S (.obj plf) =
      .ok (setF (mergeF (setF (setF (setF (setF S "data"
        (.arr (if (getF plf "firstOffset").truthy
          then coerceArr (getF plf "data")
          else xs ++ coerceArr (getF plf "data"))))
        "offset" (.int (if (getF plf "firstOffset").truthy
          then ((coerceArr (getF plf "data")).length : Int)
          else n + (coerceArr (getF plf "data")).length)))
        "hasMore" (.bool (decide (0 < (coerceArr (getF plf "data")).length))))
        "error" .null)
        (removeF (removeF plf "data") "firstOffset"))
        "pending" (.bool false)) := by
  cases hfo : (getF plf "firstOffset").truthy <;>
    simp only [pagingSuccess, JsVal.isNullish, Bool.false_eq_true, if_false,
      propGet, objFields, hfo, hdata, hoff, jsAddInt, if_true]

/-- C2 (amended): for the paging reducer's SUCCESS action with an object
payload, non-array `data` is treated as empty; `firstOffset` selects
replace-and-reset-offset versus append-and-increment-offset semantics;
`pending = false` holds unconditionally, and the claimed values of
`offset`, `error` and `hasMore` hold provided the payload carries no
extra field of the same name — the remaining payload fields are merged
after `offset`/`hasMore`/`error` are written (and before `pending`), so
an extra payload field named `offset`, `error` or `hasMore` overrides
the computed value. -/
theorem C2_paging_success_amended (p : String) (init : Obj) (S : Obj)
    (plf : Obj) (xs : List JsVal) (n : Int)
    (hdata : getF S "data" = .arr xs) (hoff : getF S "offset" = .int n)
    (hnd : keysNodup plf) :
    ∃ r, pagingReducer p init S ⟨p ++ "_SUCCESS", .obj plf, none⟩ = .ok r ∧
      getF r "pending" = .bool false ∧
      getF r "data" = .arr (if (getF plf "firstOffset").truthy
        then coerceArr (getF plf "data")
        else xs ++ coerceArr (getF plf "data")) ∧
      (hasF plf "offset" = false →
        getF r "offset" = .int (if (getF plf "firstOffset").truthy
          then ((coerceArr (getF plf "data")).length : Int)
          else n + (coerceArr (getF plf "data")).length)) ∧
      (hasF plf "error" = false → getF r "error" = .null) ∧
      (hasF plf "hasMore" = false →
        getF r "hasMore" =
          .bool (decide (0 < (coerceArr (getF plf "data")).length))) ∧
      (∀ k, k ≠ "pending" → k ≠ "data" → k ≠ "firstOffset" →
        hasF plf k = true → getF r k = getF plf k) ∧
      (∀ k, k ≠ "data" → k ≠ "offset" → k ≠ "hasMore" → k ≠ "error" →
        k ≠ "pending" → hasF plf k = false → getF r k = getF S k) := by
  have hrw := pagingSuccess_eq S plf xs n hdata hoff
  rw [pagingReducer_at_success, hrw]
  set rest := removeF (removeF plf "data") "firstOffset" with hrest
  have hndrest : keysNodup rest :=
    keysNodup_removeF _ _ (keysNodup_removeF _ _ hnd)
  have hrest_data : hasF rest "data" = false := by
    rw [hrest, hasF_removeF_ne _ _ _ (by decide), hasF_removeF_self]
  have hrest_of (k2 : String) (h2 : k2 ≠ "data") (h3 : k2 ≠ "firstOffset") :
      hasF rest k2 = hasF plf k2 := by
    rw [hrest, hasF_removeF_ne _ _ _ h3, hasF_removeF_ne _ _ _ h2]
  have hrest_false (k2 : String) (h2 : hasF plf k2 = false) :
      hasF rest k2 = false := by
    by_cases hd : k2 = "data"
    · subst hd; exact hrest_data
    · by_cases hf : k2 = "firstOffset"
      · subst hf; rw [hrest, hasF_removeF_self]
      · rw [hrest_of k2 hd hf]; exact h2
  refine ⟨_, rfl, ?_, ?_, ?_, ?_, ?_, ?_, ?_⟩
  · rw [getF_setF_self]
  · rw [getF_setF_ne _ _ _ _ (by decide), getF_mergeF_not_has _ _ _ hrest_data,
      getF_setF_ne _ _ _ _ (by decide), getF_setF_ne _ _ _ _ (by decide),
      getF_setF_ne _ _ _ _ (by decide), getF_setF_self]
  · intro h
    rw [getF_setF_ne _ _ _ _ (by decide),
      getF_mergeF_not_has _ _ _ (by rw [hrest_of _ (by decide) (by decide)]; exact h),
      getF_setF_ne _ _ _ _ (by decide), getF_setF_ne _ _ _ _ (by decide),
      getF_setF_self]
  · intro h
    rw [getF_setF_ne _ _ _ _ (by decide),
      getF_mergeF_not_has _ _ _ (by rw [hrest_of _ (by decide) (by decide)]; exact h),
      getF_setF_self]
  · intro h
    rw [getF_setF_ne _ _ _ _ (by decide),
      getF_mergeF_not_has _ _ _ (by rw [hrest_of _ (by decide) (by decide)]; exact h),
      getF_setF_ne _ _ _ _ (by decide), getF_setF_self]
  · intro k hp hd hf hk
    rw [getF_setF_ne _ _ _ _ hp,
      getF_mergeF_has _ _ _ hndrest (by rw [hrest_of _ hd hf]; exact hk),
      hrest, getF_removeF_ne _ _ _ hf, getF_removeF_ne _ _ _ hd]
  · intro k h1 h2 h3 h4 h5 hk
    rw [getF_setF_ne _ _ _ _ h5,
      getF_mergeF_not_has _ _ _ (hrest_false k hk),
      getF_setF_ne _ _ _ _ h4, getF_setF_ne _ _ _ _ h3,
      getF_setF_ne _ _ _ _ h2, getF_setF_ne _ _ _ _ h1]

/-- C2 counterexample: the claim asserts `error = null` after every
SUCCESS while also asserting every remaining payload field is merged;
with the extra payload field `error: 7` (and `data: []`,
`firstOffset` absent) the source merges `error: 7` after clearing the
error, so the resulting state has `error = 7`, not `null`. -/
theorem C2_paging_success_counterexample :
    (pagingReducer "FETCH" [] defaultAsyncPagingState
        ⟨"FETCH" ++ "_SUCCESS",
          .obj [("data", .arr []), ("error", .int 7)], none⟩).map
      (fun r => getF r "error") = .ok (.int 7) ∧
    JsVal.int 7 ≠ JsVal.null := by
  exact ⟨rfl, fun h => JsVal.noConfusion h⟩

/-- Witness for C2 (amended) at a concrete payload carrying one new
item, `firstOffset: true` and an unrelated extra field. -/
theorem C2_paging_success_amended_witness :
    (pagingReducer "FETCH" [] defaultAsyncPagingState
        ⟨"FETCH" ++ "_SUCCESS",
          .obj [("data", .arr [.obj [("id", .int 1)]]),
            ("firstOffset", .bool true), ("extra", .str "e")], none⟩).map
      (fun r => (getF r "data", getF r "offset", getF r "extra",
        getF r "pending")) =
      .ok (.arr [.obj [("id", .int 1)]], .int 1, .str "e", .bool false) := by
  obtain ⟨r, hr, hpend, hdata2, hoff2, -, -, hmerge, -⟩ :=
    C2_paging_success_amended "FETCH" [] defaultAsyncPagingState
      [("data", .arr [.obj [("id", .int 1)]]), ("firstOffset", .bool true),
        ("extra", .str "e")] [] 0 rfl rfl (by decide)
  rw [hr]
  simp only [Except.map]
  rw [hpend, hdata2, hoff2 rfl,
    hmerge "extra" (by decide) (by decide) (by decide) rfl]
  rfl

/-! ## C8: the paging REMOVE transition -/

/-- C8: REMOVE deletes the first item whose `id` strictly equals the
payload and decrements `offset`; with no match the state is returned
unchanged.  The searched id is restricted to a primitive value — for an
object id, JavaScript `===` compares references, which the value model
cannot represent — and the items are objects, as the state type
guarantees (the `findIndex` callback reads `e.id`). -/
theorem C8_paging_remove (p : String) (init : Obj) (S : Obj)
    (xs : List JsVal) (n : Int) (v : JsVal)
    (hdata : getF S "data" = .arr xs) (hoff : getF S "offset" = .int n)
    (hitems : xs.all JsVal.isObjV = true) (hv : v.isPrim = true) :
    (∀ i, findIdxById xs v = some i →
      ∃ r, pagingReducer p init S ⟨p ++ "_REMOVE", v, none⟩ = .ok r ∧
        getF r "data" = .arr (xs.eraseIdx i) ∧
        getF r "offset" = .int (n - 1) ∧
        (∀ k, k ≠ "data" → k ≠ "offset" → getF r k = getF S k)) ∧
    (findIdxById xs v = none →
      pagingReducer p init S ⟨p ++ "_REMOVE", v, none⟩ = .ok S) := by
  rw [pagingReducer_at_remove]
  constructor
  · intro i hi
    refine ⟨setF (setF S "data" (.arr (xs.eraseIdx i))) "offset"
      (.int (n - 1)), ?_, ?_, ?_, ?_⟩
    · simp only [pagingRemove, hdata, hi, hoff, jsAddInt]
      have hadd : n + (-1) = n - 1 := by ring
      rw [hadd]
    · rw [getF_setF_ne _ _ _ _ (by decide), getF_setF_self]
    · rw [getF_setF_self]
    · intro k h1 h2
      rw [getF_setF_ne _ _ _ _ h2, getF_setF_ne _ _ _ _ h1]
  · intro hi
    simp only [pagingRemove, hdata, hi]

/-- Witness for C8: a matched REMOVE on `[{id:1},{id:2}]` with id `1`,
deleting the first item and decrementing the offset. -/
theorem C8_paging_remove_witness :
    (pagingReducer "FETCH" []
        [("data", .arr [.obj [("id", .int 1)], .obj [("id", .int 2)]]),
         ("offset", .int 2), ("pending", .bool false), ("error", .null),
         ("hasMore", .bool true)]
        ⟨"FETCH" ++ "_REMOVE", .int 1, none⟩).map
      (fun r => (getF r "data", getF r "offset")) =
      .ok (.arr [.obj [("id", .int 2)]], .int 1) := by
  obtain ⟨r, hr, hd, ho, -⟩ := (C8_paging_remove "FETCH" []
    [("data", .arr [.obj [("id", .int 1)], .obj [("id", .int 2)]]),
     ("offset", .int 2), ("pending", .bool false), ("error", .null),
     ("hasMore", .bool true)]
    [.obj [("id", .int 1)], .obj [("id", .int 2)]] 2 (.int 1)
    rfl rfl rfl rfl).1 0 rfl
  rw [hr]
  simp only [Except.map]
  rw [hd, ho]
  rfl

/-! ## C9: which transitions can throw -/

theorem getF_undef_or_mem (o : Obj) (k : String) :
    getF o k = .undefined ∨ ∃ e, e ∈ o ∧ e.2 = getF o k := by
  induction o with
  | nil => exact Or.inl rfl
  | cons e t ih =>
    obtain ⟨k', v'⟩ := e
    by_cases hk : k' = k
    · right
      exact ⟨(k', v'), List.mem_cons_self _ _, by simp [getF, hk]⟩
    · rcases ih with h | ⟨e2, he2, hv⟩
      · left
        simp [getF, hk, h]
      · right
        exact ⟨e2, List.mem_cons_of_mem _ he2, by simp [getF, hk, hv]⟩

theorem asyncKeyedCase_ok (S : Obj) (k : String) (upd : Obj → Obj)
    (fresh : Obj) (hwf : asyncWFb S = true) :
    exOk (asyncKeyedCase S k upd fresh) = true := by
  unfold asyncWFb at hwf
  unfold asyncKeyedCase
  cases hde : getF S "dataEntity" with
  | undefined => simp [hde, JsVal.truthy, getF, exOk]
  | null => simp [hde, JsVal.truthy, getF, exOk]
  | bool b => rw [hde] at hwf; simp at hwf
  | int m => rw [hde] at hwf; simp at hwf
  | str s => rw [hde] at hwf; simp at hwf
  | arr l => rw [hde] at hwf; simp at hwf
  | obj df =>
    rw [hde] at hwf
    simp only [List.all_eq_true] at hwf
    rcases getF_undef_or_mem df k with hu | ⟨e, hmem, hv⟩
    · simp [hu, JsVal.truthy, exOk]
    · have hh := hwf e hmem
      rw [hv] at hh
      cases hgk : getF df k with
      | obj ef => simp [hgk, JsVal.truthy, exOk]
      | undefined => simp [hgk, JsVal.truthy, exOk]
      | null => simp [hgk, JsVal.truthy, exOk]
      | arr l =>
        rw [hgk] at hh
        simp [JsVal.isObjV, JsVal.truthy] at hh
      | bool b =>
        rw [hgk] at hh
        cases b
        · simp [hgk, JsVal.truthy, exOk]
        · simp [JsVal.isObjV, JsVal.truthy] at hh
      | int m =>
        rw [hgk] at hh
        simp only [JsVal.isObjV, JsVal.truthy, Bool.false_or,
          Bool.not_eq_true', bne_eq_false_iff_eq] at hh
        simp [hgk, JsVal.truthy, exOk, hh]
      | str s =>
        rw [hgk] at hh
        simp only [JsVal.isObjV, JsVal.truthy, Bool.false_or,
          Bool.not_eq_true', bne_eq_false_iff_eq] at hh
        simp [hgk, JsVal.truthy, exOk, hh]

theorem asyncPending_ok (d S : Obj) (key : Option String)
    (hwf : asyncWFb S = true) : exOk (asyncPending d S key) = true := by
  unfold asyncPending
  cases keyOf key with
  | none => rfl
  | some k => exact asyncKeyedCase_ok S k _ _ hwf

theorem asyncSuccess_ok (S : Obj) (pl : JsVal) (key : Option String)
    (hwf : asyncWFb S = true) : exOk (asyncSuccess S pl key) = true := by
  unfold asyncSuccess
  cases keyOf key with
  | none => rfl
  | some k => exact asyncKeyedCase_ok S k _ _ hwf

theorem asyncFail_ok (d S : Obj) (pl : JsVal) (key : Option String)
    (hwf : asyncWFb S = true) : exOk (asyncFail d S pl key) = true := by
  unfold asyncFail
  cases keyOf key with
  | none => rfl
  | some k => exact asyncKeyedCase_ok S k _ _ hwf

theorem asyncReset_ok (S : Obj) (key : Option String) :
    exOk (asyncReset S key) = true := by
  unfold asyncReset
  cases keyOf key with
  | none => rfl
  | some k =>
    by_cases hk : k = "*" <;> simp [hk, exOk]

theorem pagingPending_ok (S : Obj) (pl : JsVal) (hnp : pl.isNullish = false) :
    exOk (pagingPending S pl) = true := by
  unfold pagingPending
  rw [hnp]
  rfl

theorem pagingSuccess_ok (S : Obj) (pl : JsVal) (xs : List JsVal)
    (hdata : getF S "data" = .arr xs) (hnp : pl.isNullish = false) :
    exOk (pagingSuccess S pl) = true := by
  unfold pagingSuccess
  rw [hnp]
  cases hfo : (propGet pl "firstOffset").truthy <;>
    simp [hfo, hdata, exOk]

theorem pagingAddLast_ok (S : Obj) (pl : JsVal) (xs : List JsVal)
    (hdata : getF S "data" = .arr xs) : exOk (pagingAddLast S pl) = true := by
  unfold pagingAddLast
  rw [hdata]
  rfl

theorem pagingAddFirst_ok (S : Obj) (pl : JsVal) (xs : List JsVal)
    (hdata : getF S "data" = .arr xs) : exOk (pagingAddFirst S pl) = true := by
  unfold pagingAddFirst
  rw [hdata]
  rfl

theorem pagingUpdate_ok (S : Obj) (pl : JsVal) (xs : List JsVal)
    (hdata : getF S "data" = .arr xs) (hnp : pl.isNullish = false) :
    exOk (pagingUpdate S pl) = true := by
  unfold pagingUpdate
  rw [hdata]
  simp only [JsVal.truthy, if_true]
  by_cases he : xs.isEmpty <;>
    · simp only [he, if_true, if_false, hnp, Bool.false_eq_true]
      first
      | rfl
      | cases findIdxById xs (propGet pl "id") <;> rfl

theorem pagingReplace_ok (S : Obj) (pl : JsVal) (xs : List JsVal)
    (hdata : getF S "data" = .arr xs) (hnp : pl.isNullish = false) :
    exOk (pagingReplace S pl) = true := by
  unfold pagingReplace
  rw [hnp, hdata]
  simp only [Bool.false_eq_true, if_false]
  cases findIdxById xs (propGet pl "id") with
  | none => rfl
  | some i =>
    by_cases hp : ((propGet pl "data").truthy && !(propGet pl "data").isArrV) = true <;>
      simp [hp, exOk]

theorem pagingRemove_ok (S : Obj) (pl : JsVal) (xs : List JsVal)
    (hdata : getF S "data" = .arr xs) : exOk (pagingRemove S pl) = true := by
  unfold pagingRemove
  rw [hdata]
  cases h : findIdxById xs pl with
  | none => simp [h, exOk]
  | some i => simp [h, exOk]

/-- C9 (amended): with a well-formed state (for the simple reducer,
`dataEntity` absent or an object of object-or-falsy entries; for the
paging reducer, `data` an array of objects), every transition of the
simple reducer is total for every payload — including a null or
undefined one — and every transition of the paging reducer is total for
every payload that is not null and not undefined.  A nullish payload
does throw in the paging PENDING, SUCCESS, REPLACE (and non-empty-list
UPDATE) cases, because they destructure or read a property of
`action.payload` — see the counterexample. -/
theorem C9_totality_amended (p : String) (initA initP : Obj) (S SP : Obj)
    (pl pl2 : JsVal) (key : Option String) (xs : List JsVal)
    (hwf : asyncWFb S = true)
    (hdata : getF SP "data" = .arr xs)
    (hitems : xs.all JsVal.isObjV = true)
    (hnp : pl.isNullish = false) :
    exOk (asyncReducer p initA S ⟨p ++ "_PENDING", pl2, key⟩) = true ∧
    exOk (asyncReducer p initA S ⟨p ++ "_SUCCESS", pl2, key⟩) = true ∧
    exOk (asyncReducer p initA S ⟨p ++ "_FAIL", pl2, key⟩) = true ∧
    exOk (asyncReducer p initA S ⟨p ++ "_RESET", pl2, key⟩) = true ∧
    exOk (pagingReducer p initP SP ⟨p ++ "_PENDING", pl, key⟩) = true ∧
    exOk (pagingReducer p initP SP ⟨p ++ "_SUCCESS", pl, key⟩) = true ∧
    exOk (pagingReducer p initP SP ⟨p ++ "_ADD_LAST", pl, key⟩) = true ∧
    exOk (pagingReducer p initP SP ⟨p ++ "_ADD_FIRST", pl, key⟩) = true ∧
    exOk (pagingReducer p initP SP ⟨p ++ "_UPDATE", pl, key⟩) = true ∧
    exOk (pagingReducer p initP SP ⟨p ++ "_REPLACE", pl, key⟩) = true ∧
    exOk (pagingReducer p initP SP ⟨p ++ "_REMOVE", pl, key⟩) = true ∧
    exOk (pagingReducer p initP SP ⟨p ++ "_FAIL", pl, key⟩) = true ∧
    exOk (pagingReducer p initP SP ⟨p ++ "_RESET", pl, key⟩) = true := by
  refine ⟨?_, ?_, ?_, ?_, ?_, ?_, ?_, ?_, ?_, ?_, ?_, ?_, ?_⟩
  · rw [asyncReducer_at_pending]
    exact asyncPending_ok _ S key hwf
  · rw [asyncReducer_at_success]
    exact asyncSuccess_ok S pl2 key hwf
  · rw [asyncReducer_at_fail]
    exact asyncFail_ok _ S pl2 key hwf
  · rw [asyncReducer_at_reset]
    exact asyncReset_ok S key
  · rw [pagingReducer_at_pending]
    exact pagingPending_ok SP pl hnp
  · rw [pagingReducer_at_success]
    exact pagingSuccess_ok SP pl xs hdata hnp
  · rw [pagingReducer_at_add_last]
    exact pagingAddLast_ok SP pl xs hdata
  · rw [pagingReducer_at_add_first]
    exact pagingAddFirst_ok SP pl xs hdata
  · rw [pagingReducer_at_update]
    exact pagingUpdate_ok SP pl xs hdata hnp
  · rw [pagingReducer_at_replace]
    exact pagingReplace_ok SP pl xs hdata hnp
  · rw [pagingReducer_at_remove]
    exact pagingRemove_ok SP pl xs hdata
  · rw [pagingReducer_at_fail]
    rfl
  · rw [pagingReducer_at_reset]
    rfl

/-- C9 counterexample: the paging SUCCESS case destructures
`action.payload`, so an absent (undefined) payload throws a TypeError
instead of being handled by a defensive guard — the claim's totality
over every payload shape, including an absent payload, fails. -/
theorem C9_nullish_payload_counterexample :
    pagingReducer "FETCH" [] defaultAsyncPagingState
      ⟨"FETCH" ++ "_SUCCESS", .undefined, none⟩ = .error () := by
  rfl

/-- Witness for C9 (amended): default states, an empty-object payload
for the paging reducer and an undefined payload for the simple one. -/
theorem C9_totality_amended_witness :
    exOk (asyncReducer "FETCH" [] defaultAsyncState
      ⟨"FETCH" ++ "_PENDING", .undefined, some "k"⟩) = true ∧
    exOk (asyncReducer "FETCH" [] defaultAsyncState
      ⟨"FETCH" ++ "_SUCCESS", .undefined, some "k"⟩) = true ∧
    exOk (asyncReducer "FETCH" [] defaultAsyncState
      ⟨"FETCH" ++ "_FAIL", .undefined, some "k"⟩) = true ∧
    exOk (asyncReducer "FETCH" [] defaultAsyncState
      ⟨"FETCH" ++ "_RESET", .undefined, some "k"⟩) = true ∧
    exOk (pagingReducer "FETCH" [] defaultAsyncPagingState
      ⟨"FETCH" ++ "_PENDING", .obj [], some "k"⟩) = true ∧
    exOk (pagingReducer "FETCH" [] defaultAsyncPagingState
      ⟨"FETCH" ++ "_SUCCESS", .obj [], some "k"⟩) = true ∧
    exOk (pagingReducer "FETCH" [] defaultAsyncPagingState
      ⟨"FETCH" ++ "_ADD_LAST", .obj [], some "k"⟩) = true ∧
    exOk (pagingReducer "FETCH" [] defaultAsyncPagingState
      ⟨"FETCH" ++ "_ADD_FIRST", .obj [], some "k"⟩) = true ∧
    exOk (pagingReducer "FETCH" [] defaultAsyncPagingState
      ⟨"FETCH" ++ "_UPDATE", .obj [], some "k"⟩) = true ∧
    exOk (pagingReducer "FETCH" [] defaultAsyncPagingState
      ⟨"FETCH" ++ "_REPLACE", .obj [], some "k"⟩) = true ∧
    exOk (pagingReducer "FETCH" [] defaultAsyncPagingState
      ⟨"FETCH" ++ "_REMOVE", .obj [], some "k"⟩) = true ∧
    exOk (pagingReducer "FETCH" [] defaultAsyncPagingState
      ⟨"FETCH" ++ "_FAIL", .obj [], some "k"⟩) = true ∧
    exOk (pagingReducer "FETCH" [] defaultAsyncPagingState
      ⟨"FETCH" ++ "_RESET", .obj [], some "k"⟩) = true :=
  C9_totality_amended "FETCH" [] [] defaultAsyncState
    defaultAsyncPagingState (.obj []) .undefined (some "k") [] rfl rfl rfl rfl

/-! ## C10: createReducerBatch and falsy initial states -/

/-- C10: every batch entry whose configured initial state is falsy is
coerced to `null` by `option[1] || null` (line 198), so the produced
reducer's default state — returned on the first call with an undefined
incoming state and a non-matching action — is `null`, not the configured
falsy value. -/
theorem C10_batch_falsy_initial (entries : List (String × String × JsVal))
    (name aty : String) (iv : JsVal) (a : IAsyncAction)
    (hmem : (name, (aty, iv)) ∈ entries)
    (hfalsy : iv.truthy = false) (hnn : iv ≠ .null) (hnu : iv ≠ .undefined)
    (hty : a.type ≠ aty) :
    (name, batchReducer aty iv) ∈ createReducerBatch entries ∧
      batchReducer aty iv .undefined a = .null := by
  constructor
  · unfold createReducerBatch
    exact List.mem_map.mpr ⟨(name, (aty, iv)), hmem, rfl⟩
  · unfold batchReducer
    simp [hfalsy, hty]

/-- Witness for C10: the entry `mute: ['SET_MUTE', false]` from the
source's own doc comment; the reducer's default state is `null`, not
`false`. -/
theorem C10_batch_falsy_initial_witness :
    ("mute", batchReducer "SET_MUTE" (.bool false)) ∈
        createReducerBatch [("mute", ("SET_MUTE", .bool false))] ∧
      batchReducer "SET_MUTE" (.bool false) .undefined ⟨"OTHER", .null, none⟩ =
        .null :=
  C10_batch_falsy_initial [("mute", ("SET_MUTE", .bool false))] "mute"
    "SET_MUTE" (.bool false) ⟨"OTHER", .null, none⟩
    (List.mem_singleton.mpr rfl) rfl (fun h => JsVal.noConfusion h)
    (fun h => JsVal.noConfusion h) (by decide)
